import Mathlib

/-!
# Verification of the ranger-archives command-synthesis engine

Shallow embedding of `archives_utils.py` (the format registry, tool
availability resolver, ambiguity resolver and the two command
synthesizers `ArchiveCompressor.get_command` and
`ArchiveDecompressor.get_command`), together with theorems settling the
frozen claims about the engine.

Conventions of the embedding:
* Host state (which binaries `shutil.which` finds) is an explicit
  environment `Env` mapping a binary name to its optional resolved path.
* Python code that can raise (`format_config["compression"]` on a format
  without a `compression` entry) is embedded as `Option`: `none` models a
  raised `KeyError`, `some cmd` a normal return.
* The filesystem side effect of `Path(to_dir).mkdir(parents=True,
  exist_ok=True)` is explicit state passing over a list of existing
  directories.
* The regexes in `FORMATS` are all of the shape `\.literal$` (plus the one
  optional-character pattern `\.tbz2?$`), so `re.search(pattern, s)` is
  embedded as a suffix test against the pattern's literal alternatives.
  (Python's `$` would additionally accept one trailing newline; filenames
  with a trailing newline are outside the embedding.)
* String primitives are implemented by structural recursion on `List Char`
  so that every definition reduces in the kernel.
-/

namespace RangerArchives

/-! ## String primitives (kernel-reducible replacements for the Python
string operations used by the source) -/

/-- ASCII lower-casing of one character, as Python `str.lower` acts on the
ASCII range (all registry patterns are ASCII). -/
def lowerChar : Char → Char
  | 'A' => 'a' | 'B' => 'b' | 'C' => 'c' | 'D' => 'd' | 'E' => 'e'
  | 'F' => 'f' | 'G' => 'g' | 'H' => 'h' | 'I' => 'i' | 'J' => 'j'
  | 'K' => 'k' | 'L' => 'l' | 'M' => 'm' | 'N' => 'n' | 'O' => 'o'
  | 'P' => 'p' | 'Q' => 'q' | 'R' => 'r' | 'S' => 's' | 'T' => 't'
  | 'U' => 'u' | 'V' => 'v' | 'W' => 'w' | 'X' => 'x' | 'Y' => 'y'
  | 'Z' => 'z'
  | c => c

/-- `filename.lower()` -/
def strLower (s : String) : String := String.mk (s.data.map lowerChar)

/-- Is the first list a prefix of the second? -/
def listPre : List Char → List Char → Bool
  | [], _ => true
  | _ :: _, [] => false
  | a :: as, b :: bs => a == b && listPre as bs

/-- Does `pat` occur as a contiguous substring of `hay` (Python `pat in hay`)? -/
def listContains (hay pat : List Char) : Bool :=
  match hay with
  | [] => pat.isEmpty
  | _ :: cs => listPre pat hay || listContains cs pat

/-- `s.endswith(suffix)` / anchored regex suffix match. -/
def strEndsWith (s suf : String) : Bool :=
  listPre suf.data.reverse s.data.reverse

/-- `s.startswith(pre)` -/
def strStartsWith (s p : String) : Bool :=
  listPre p.data s.data

/-- Python `pat in s` for strings. -/
def strContainsSub (s pat : String) : Bool :=
  listContains s.data pat.data

/-- Fuel-indexed worker for leftmost non-overlapping replace-all. One unit
of fuel is spent per consumed character, so `fuel = hay.length` suffices. -/
def replaceAux (pat sub : List Char) : Nat → List Char → List Char
  | 0, s => s
  | _ + 1, [] => []
  | fuel + 1, c :: cs =>
    if listPre pat (c :: cs) then
      sub ++ replaceAux pat sub fuel (List.drop pat.length (c :: cs))
    else
      c :: replaceAux pat sub fuel cs

/-- Python `s.replace(pat, sub)` (replace all occurrences, left to right;
the source only calls it with a non-empty `pat`). -/
def strReplace (s pat sub : String) : String :=
  String.mk (replaceAux pat.data sub.data s.data.length s.data)

/-- Split on a single character (used only to model `pathlib` components). -/
def splitOnChar (sep : Char) : List Char → List (List Char)
  | [] => [[]]
  | c :: cs =>
    let r := splitOnChar sep cs
    if c == sep then [] :: r
    else
      match r with
      | [] => [[c]]
      | h :: t => (c :: h) :: t

/-- `Path(file_path).name`: the last non-empty, non-`"."` slash-separated
component (matching `pathlib` on the ordinary paths the plugin passes). -/
def pathBasename (s : String) : String :=
  String.mk ((((splitOnChar '/' s.data).filter
    (fun c => !(c.isEmpty) && c != ['.'])).getLastD []))

/-- `" ".join(parts)` -/
def joinSpace : List String → String
  | [] => ""
  | [x] => x
  | x :: xs => x ++ " " ++ joinSpace xs

/-- A single-quote character as a string (used by the source's f-strings
that wrap arguments in shell quotes). -/
def shQuote : String := String.singleton (Char.ofNat 39)

/-! ## Data model: the `FORMATS` registry (archives_utils.py lines 9-156) -/

/-- One entry of a format's `compression` / `extraction` list: interchangeable
candidate binaries, their template flags, and the optional `output_flag`. -/
structure ToolGroup where
  tools : List String
  flags : List String
  output_flag : Option String := none
deriving DecidableEq

/-- One value of the `FORMATS` dict.  `compression := none` models a format
dict that has no `"compression"` key at all (only `deb`); accessing it via
`format_config["compression"]` then raises `KeyError`.  `patterns` holds the
regex source strings exactly as written in the Python file. -/
structure FormatConfig where
  patterns : List String
  single_file : Bool := false
  check_tar : Bool := false
  special_extraction : Option String := none
  fallback : Option String := none
  compression : Option (List ToolGroup) := none
  extraction : List ToolGroup
deriving DecidableEq

/-- The `FORMATS` table, in Python dict insertion (= registration) order. -/
def FORMATS : List (String × FormatConfig) := [
  ("tar_bz2",
   { patterns := ["\\.tar\\.bz2$", "\\.tbz2?$"],
     compression := some [{ tools := ["pbzip2", "lbzip2", "bzip2"], flags := ["-cf"] }],
     extraction := [{ tools := ["tar"], flags := ["-xf"] }] }),
  ("tar_bz3",
   { patterns := ["\\.tar\\.bz3$", "\\.tbz3$"],
     special_extraction := some "pipe",
     compression := some [{ tools := ["bzip3"], flags := ["-cf"] }],
     extraction := [{ tools := ["tar"], flags := ["-xf"] }] }),
  ("tar_gz",
   { patterns := ["\\.tar\\.gz$", "\\.tgz$", "\\.taz$"],
     compression := some [{ tools := ["pigz", "gzip"], flags := ["-cf"] }],
     extraction := [{ tools := ["tar"], flags := ["-xf"] }] }),
  ("tar_xz",
   { patterns := ["\\.tar\\.xz$", "\\.txz$", "\\.tlz$"],
     compression := some [{ tools := ["pixz", "xz"], flags := ["-cf"] }],
     extraction := [{ tools := ["tar"], flags := ["-xf"] }] }),
  ("tar_lz4",
   { patterns := ["\\.tar\\.lz4$"],
     compression := some [{ tools := ["lz4"], flags := ["-cf"] }],
     extraction := [{ tools := ["tar"], flags := ["-xf"] }] }),
  ("tar_lrz",
   { patterns := ["\\.tar\\.lrz$"],
     compression := some [{ tools := ["lrzip"], flags := ["-cf"] }],
     extraction := [{ tools := ["tar"], flags := ["-xf"] }] }),
  ("tar_lzip",
   { patterns := ["\\.tar\\.lz$"],
     compression := some [{ tools := ["plzip", "lzip"], flags := ["-cf"] }],
     extraction := [{ tools := ["tar"], flags := ["-xf"] }] }),
  ("tar_lzop",
   { patterns := ["\\.tar\\.lzop$", "\\.tzo$"],
     compression := some [{ tools := ["lzop"], flags := ["-cf"] }],
     extraction := [{ tools := ["tar"], flags := ["-xf"] }] }),
  ("tar_zst",
   { patterns := ["\\.tar\\.zst$"],
     compression := some [{ tools := ["zstd"], flags := ["-cf"] }],
     extraction := [{ tools := ["tar"], flags := ["-xf"] }] }),
  ("tar",
   { patterns := ["\\.tar$"],
     compression := some [{ tools := ["tar"], flags := ["-cf"] },
                          { tools := ["7z"], flags := ["a"] }],
     extraction := [{ tools := ["tar"], flags := ["-xf"] }] }),
  ("bz2",
   { patterns := ["\\.bz2$"], single_file := true, check_tar := true,
     compression := some [{ tools := ["pbzip2", "lbzip2", "bzip2"], flags := ["-c"] }],
     extraction := [{ tools := ["pbzip2", "lbzip2", "bzip2"], flags := ["-dk"] }] }),
  ("bz3",
   { patterns := ["\\.bz3$"], single_file := true, check_tar := true,
     compression := some [{ tools := ["bzip3"], flags := ["-c"] }],
     extraction := [{ tools := ["bzip3"], flags := ["-dk"] }] }),
  ("gz",
   { patterns := ["\\.gz$"], single_file := true, check_tar := true,
     compression := some [{ tools := ["pigz", "gzip"], flags := ["-c"] }],
     extraction := [{ tools := ["pigz", "gzip"], flags := ["-dk"] }] }),
  ("xz",
   { patterns := ["\\.xz$", "\\.lzma$"], single_file := true, check_tar := true,
     compression := some [{ tools := ["pixz", "xz"], flags := ["-c"] }],
     extraction := [{ tools := ["pixz", "xz"], flags := ["-dk"] }] }),
  ("lzip",
   { patterns := ["\\.lz$"], single_file := true, check_tar := true,
     compression := some [{ tools := ["plzip", "lzip"], flags := ["-c"] }],
     extraction := [{ tools := ["plzip", "lzip"], flags := ["-dk"] }] }),
  ("lz4",
   { patterns := ["\\.lz4$"], single_file := true, check_tar := true,
     compression := some [{ tools := ["lz4"], flags := ["-c"] }],
     extraction := [{ tools := ["lz4"], flags := ["-dk"] }] }),
  ("lzop",
   { patterns := ["\\.lzop$"], single_file := true, check_tar := true,
     compression := some [{ tools := ["lzop"], flags := ["-c"] }],
     extraction := [{ tools := ["lzop"], flags := ["-dk"] }] }),
  ("lrzip",
   { patterns := ["\\.lrz$"], single_file := true, check_tar := true,
     compression := some [{ tools := ["lrzip"], flags := ["-o", "-"] }],
     extraction := [{ tools := ["lrzip"], flags := ["-d"] }] }),
  ("seven_zip",
   { patterns := ["\\.7z$"],
     compression := some [{ tools := ["7z"], flags := ["a"] }],
     extraction := [{ tools := ["7z"], flags := ["x"], output_flag := some "-o" }] }),
  ("rar",
   { patterns := ["\\.rar$"],
     compression := some [{ tools := ["rar"], flags := ["a", "-r"] }],
     extraction := [{ tools := ["unrar", "rar"], flags := ["x"], output_flag := some "-op" },
                    { tools := ["7z"], flags := ["x"], output_flag := some "-o" }] }),
  ("zip",
   { patterns := ["\\.zip$"],
     compression := some [{ tools := ["zip"], flags := ["-r"] },
                          { tools := ["7z"], flags := ["a", "-tzip"] }],
     extraction := [{ tools := ["unzip"], flags := [], output_flag := some "-d" },
                    { tools := ["7z"], flags := ["x"], output_flag := some "-o" }] }),
  ("zpaq",
   { patterns := ["\\.zpaq$"],
     compression := some [{ tools := ["zpaq"], flags := ["a"] }],
     extraction := [{ tools := ["zpaq"], flags := ["x"], output_flag := some "-to" }] }),
  ("deb",
   { patterns := ["\\.deb$"],
     extraction := [{ tools := ["ar"], flags := ["-x"] }] })]

/-! ## Pattern matching and format lookup (lines 191-217) -/

/-- `pattern.replace("\\.", ".").replace("$", "")` as computed by
`_convert_to_tar_format` (line 331). -/
def cleanPattern (p : String) : String :=
  strReplace (strReplace p "\\." ".") "$" ""

/-- The literal suffix alternatives denoted by one registry regex.  Every
registry pattern is an escaped literal anchored by `$`, except `\.tbz2?$`
whose trailing `2` is optional. -/
def patSuffixes (p : String) : List String :=
  if p == "\\.tbz2?$" then [".tbz", ".tbz2"] else [cleanPattern p]

/-- `re.search(pattern, s)` for the registry's anchored-literal patterns:
true iff `s` ends with one of the pattern's literal alternatives. -/
def searchPat (p : String) (s : String) : Bool :=
  (patSuffixes p).any (fun suf => strEndsWith s suf)

/-- `match_format_patterns(filename, patterns)` (lines 196-202): lower-case
the filename and try each pattern. -/
def matchFormatPatterns (filename : String) (patterns : List String) : Bool :=
  patterns.any (fun p => searchPat p (strLower filename))

/-- `find_archive_format(filename)` (lines 205-212): first registered
descriptor whose pattern list matches; `None` when nothing matches. -/
def findArchiveFormat (filename : String) : Option (String × FormatConfig) :=
  FORMATS.find? (fun e => matchFormatPatterns filename e.2.patterns)

/-- `is_tar_format(format_name)` (lines 191-193). -/
def isTarFormat (fn : String) : Bool :=
  fn != "" && (strStartsWith fn "tar_" || fn == "tar")

/-- `is_compressed_tar_archive(file_path)` (lines 215-217): the ambiguity
resolver of this revision — purely a naming test, no content inspection. -/
def isCompressedTarArchive (path : String) : Bool :=
  strContainsSub (strLower (pathBasename path)) ".tar."

/-! ## Host environment and tool availability (lines 159-188) -/

/-- The host's `shutil.which`: binary name to optional absolute path.
This is the only host state the engine reads. -/
structure Env where
  which : String → Option String

/-- `is_command_available(cmd)` (lines 159-163). -/
def isCommandAvailable (env : Env) (cmd : String) : Bool :=
  if cmd == "" then false else (env.which cmd).isSome

/-- `which(tool)` as used at command-build sites; every reachable use is
guarded by a prior availability check, so the `""` default never fires on a
reachable path. -/
def whichD (env : Env) (tool : String) : String :=
  (env.which tool).getD ""

/-- `find_available_tool(tools)` (lines 166-174): first candidate resolvable
on the host. -/
def findAvailableTool (env : Env) : List String → Option String
  | [] => none
  | t :: ts =>
    if isCommandAvailable env t then some t else findAvailableTool env ts

/-- `find_available_tool_group(tool_groups)` (lines 177-188): first group
with an available tool; returns that tool, the group's flags and its
`output_flag`.  The Python `(None, None, None)` triple is `none`. -/
def findAvailableToolGroup (env : Env) :
    List ToolGroup → Option (String × List String × Option String)
  | [] => none
  | g :: gs =>
    match findAvailableTool env g.tools with
    | some t => some (t, g.flags, g.output_flag)
    | none => findAvailableToolGroup env gs

/-! ## Compression synthesis (`ArchiveCompressor`, lines 220-378) -/

/-- `_build_standard_command` (lines 356-365). -/
def buildStandardCommand (env : Env) (tool : String) (toolFlags userFlags : List String)
    (archiveName : String) (files : List String) : List String :=
  [whichD env tool] ++ toolFlags ++ userFlags ++ [archiveName] ++ files

/-- `_build_tar_command_with_compression` (lines 275-295). -/
def buildTarCommandWithCompression (env : Env) (tool : String)
    (toolFlags userFlags : List String) (archiveName : String)
    (files : List String) : List String :=
  if !isCommandAvailable env "tar" then []
  else
    [whichD env "tar"] ++ toolFlags ++ userFlags ++
      [archiveName, "--use-compress-program", whichD env tool] ++ files

/-- `_get_fallback_compression_command` (lines 367-378): retarget to
`<name>.zip` with the zip format's compression groups; empty when none of
those tools is available.  (`FORMATS.get("zip")` always finds the entry, so
the `getD` default is unreachable.) -/
def fallbackCompressionCommand (env : Env) (archiveName : String)
    (userFlags files : List String) : List String :=
  match findAvailableToolGroup env
      (((FORMATS.lookup "zip").bind (fun c => c.compression)).getD []) with
  | some (t, tf, _) =>
    buildStandardCommand env t tf userFlags (archiveName ++ ".zip") files
  | none => []

/-- The first `(single_file format, pattern)` hit of the scan in
`_convert_to_tar_format` (lines 327-330); returns the matching pattern. -/
def firstSingleFileMatch (archiveName : String) : Option String :=
  (FORMATS.filter (fun e => e.2.single_file)).findSome?
    (fun e => e.2.patterns.find? (fun p => searchPat p (strLower archiveName)))

/-- `_convert_to_tar_format` (lines 318-354).  `none` models the `KeyError`
raised if the rewritten name mapped to a tar format without a
`compression` entry (unreachable over the actual registry). -/
def convertToTarFormat (env : Env) (tool : String) (userFlags : List String)
    (archiveName : String) (files : List String) : Option (List String) :=
  match firstSingleFileMatch archiveName with
  | some pat =>
    let clean := cleanPattern pat
    let tarName := strReplace archiveName clean (".tar" ++ clean)
    match findArchiveFormat tarName with
    | some (tfn, tcfg) =>
      if isTarFormat tfn then
        match tcfg.compression with
        | none => none
        | some gs =>
          match findAvailableToolGroup env gs with
          | some (tarTool, tarFlags, _) =>
            if tarFlags.isEmpty then
              some (buildTarCommandWithCompression env tool ["-cf"] userFlags tarName files)
            else
              some (buildTarCommandWithCompression env tarTool tarFlags userFlags tarName files)
          | none =>
            some (buildTarCommandWithCompression env tool ["-cf"] userFlags tarName files)
      else
        some (buildTarCommandWithCompression env tool ["-cf"] userFlags tarName files)
    | none =>
      some (buildTarCommandWithCompression env tool ["-cf"] userFlags tarName files)
  | none =>
    some (buildTarCommandWithCompression env tool ["-cf"] userFlags
      (archiveName ++ ".tar") files)

/-- `_handle_single_file_compression` (lines 297-316).  With exactly one
input file the source builds a shell redirection string (an f-string that
single-quotes the file and the archive name). -/
def handleSingleFileCompression (env : Env) (tool : String)
    (toolFlags userFlags : List String) (archiveName : String)
    (files : List String) : Option (List String) :=
  if files.length == 1 then
    let flagsStr := joinSpace (toolFlags ++ userFlags)
    some ["sh", "-c",
      whichD env tool ++ " " ++ flagsStr ++ " " ++ shQuote ++ files.headD "" ++
        shQuote ++ " > " ++ shQuote ++ archiveName ++ shQuote]
  else
    convertToTarFormat env tool userFlags archiveName files

/-- `ArchiveCompressor.get_command` (lines 223-273).  `none` models a raised
exception (`KeyError` from `format_config["compression"]` when the matched
format has no compression entry). -/
def compressGetCommand (env : Env) (archiveName : String)
    (userFlags files : List String) : Option (List String) :=
  match findArchiveFormat archiveName with
  | none => some (fallbackCompressionCommand env archiveName userFlags files)
  | some (fn, cfg) =>
    match cfg.compression with
    | none => none
    | some groups =>
      match findAvailableToolGroup env groups with
      | none =>
        match cfg.fallback.bind (fun fb => FORMATS.lookup fb) with
        | some fbCfg =>
          match fbCfg.compression with
          | none => none
          | some fbGroups =>
            match findAvailableToolGroup env fbGroups with
            | some (ft, ff, _) =>
              some (buildStandardCommand env ft ff userFlags archiveName files)
            | none =>
              some (fallbackCompressionCommand env archiveName userFlags files)
        | none => some (fallbackCompressionCommand env archiveName userFlags files)
      | some (tool, toolFlags, _) =>
        if cfg.single_file then
          handleSingleFileCompression env tool toolFlags userFlags archiveName files
        else if isTarFormat fn then
          if fn == "tar" then
            some (buildStandardCommand env tool toolFlags userFlags archiveName files)
          else
            some (buildTarCommandWithCompression env tool toolFlags userFlags
              archiveName files)
        else
          some (buildStandardCommand env tool toolFlags userFlags archiveName files)

/-! ## Extraction synthesis (`ArchiveDecompressor`, lines 381-520) -/

/-- Python truthiness of the optional `to_dir` string: `None` and `""` are
both falsy everywhere the source writes `if to_dir:`. -/
def truthy : Option String → Bool
  | none => false
  | some s => s != ""

/-- `_build_pipe_extraction_command` (lines 446-461): the one shell pipeline,
decompressor stdout into `tar -xf -`.  `none` models the `KeyError` on a
pipe format without a `compression` entry (unreachable over the registry). -/
def pipeExtractionCommand (env : Env) (archiveName : String) (cfg : FormatConfig)
    (toDir : Option String) : Option (List String) :=
  match cfg.compression with
  | none => none
  | some gs =>
    match findAvailableToolGroup env gs with
    | some (ct, _, _) =>
      if isCommandAvailable env "tar" then
        let base := whichD env ct ++ " -dc " ++ shQuote ++ archiveName ++ shQuote ++
          " | " ++ whichD env "tar" ++ " -xf -"
        let cmdStr :=
          if truthy toDir then base ++ " -C " ++ shQuote ++ toDir.getD "" ++ shQuote
          else base
        some ["sh", "-c", cmdStr]
      else some []
    | none => some []

/-- `_build_single_file_extraction_command` (lines 463-471). -/
def buildSingleFileExtractionCommand (env : Env) (cfg : FormatConfig)
    (userFlags : List String) (archiveName : String) : List String :=
  match findAvailableToolGroup env cfg.extraction with
  | some (t, tf, _) => [whichD env t] ++ tf ++ userFlags ++ [archiveName]
  | none => []

/-- `_build_extraction_command` (lines 473-498).  Note the source's guard is
`if to_dir and output_flag:`, so an *empty-string* output flag is falsy and
its `elif output_flag == "":` arm is unreachable. -/
def buildExtractionCommand (env : Env) (tool : String)
    (toolFlags userFlags : List String) (outputFlag : Option String)
    (archiveName : String) (toDir : Option String) : List String :=
  let cmd := [whichD env tool] ++ toolFlags ++ userFlags ++ [archiveName]
  if truthy toDir && truthy outputFlag then
    let d := toDir.getD ""
    let of := outputFlag.getD ""
    if ["-o", "-op", "--output="].contains of then cmd ++ [of ++ d]
    else if ["-d", "-to"].contains of then cmd ++ [of, d]
    else if of == "" then cmd ++ [d]
    else cmd ++ [of, d]
  else if truthy toDir && tool == "tar" then cmd ++ ["-C", toDir.getD ""]
  else cmd

/-- `_get_fallback_extraction_command` (lines 500-520): try 7z, then unzip;
the final arm *assumes* 7z and emits a literal `"7z"` even when nothing is
installed. -/
def fallbackExtractionCommand (env : Env) (archiveName : String)
    (userFlags : List String) (toDir : Option String) : List String :=
  if isCommandAvailable env "7z" then
    [whichD env "7z", "x"] ++ userFlags ++ [archiveName] ++
      (if truthy toDir then ["-o" ++ toDir.getD ""] else [])
  else if isCommandAvailable env "unzip" then
    [whichD env "unzip"] ++ userFlags ++ [archiveName] ++
      (if truthy toDir then ["-d", toDir.getD ""] else [])
  else
    ["7z", "x"] ++ userFlags ++ [archiveName] ++
      (if truthy toDir then ["-o" ++ toDir.getD ""] else [])

/-- The command part of `ArchiveDecompressor.get_command` (lines 384-444),
i.e. everything after the `mkdir` side effect; pure in the filesystem. -/
def decompressCore (env : Env) (archiveName : String) (userFlags : List String)
    (toDir : Option String) : Option (List String) :=
  match findArchiveFormat archiveName with
  | some (_, cfg) =>
    if cfg.special_extraction = some "pipe" then
      pipeExtractionCommand env archiveName cfg toDir
    else if cfg.check_tar && isCompressedTarArchive archiveName &&
        isCommandAvailable env "tar" then
      some ([whichD env "tar", "-xf", archiveName] ++
        (if truthy toDir then ["-C", toDir.getD ""] else []) ++ userFlags)
    else if cfg.check_tar && !isCompressedTarArchive archiveName then
      some (buildSingleFileExtractionCommand env cfg userFlags archiveName)
    else
      match findAvailableToolGroup env cfg.extraction with
      | some (t, tf, of) =>
        some (buildExtractionCommand env t tf userFlags of archiveName toDir)
      | none =>
        match cfg.fallback.bind (fun fb => FORMATS.lookup fb) with
        | some fbCfg =>
          match findAvailableToolGroup env fbCfg.extraction with
          | some (t, tf, of) =>
            some (buildExtractionCommand env t tf userFlags of archiveName toDir)
          | none => some (fallbackExtractionCommand env archiveName userFlags toDir)
        | none => some (fallbackExtractionCommand env archiveName userFlags toDir)
  | none => some (fallbackExtractionCommand env archiveName userFlags toDir)

/-- All the directories `Path(d).mkdir(parents=True, exist_ok=True)`
guarantees to exist: `d` and every slash-prefix of it. -/
def pathAncestors (d : String) : List String :=
  let comps := splitOnChar '/' d.data
  (List.range comps.length).map
    (fun i => String.mk (List.intercalate ['/'] (comps.take (i + 1))))

/-- Effect of `Path(d).mkdir(parents=True, exist_ok=True)` on the set of
existing directories (modelled as a list). -/
def mkdirParents (d : String) (dirs : List String) : List String :=
  d :: (pathAncestors d ++ dirs)

/-- `ArchiveDecompressor.get_command` (lines 384-444) with the filesystem
state explicit: the directory set is updated first (line 389-390,
`if to_dir: Path(to_dir).mkdir(...)`), unconditionally on the format lookup
and tool resolution that follow. -/
def decompressGetCommand (env : Env) (archiveName : String)
    (userFlags : List String) (toDir : Option String) (dirs : List String) :
    Option (List String) × List String :=
  let dirs1 := if truthy toDir then mkdirParents (toDir.getD "") dirs else dirs
  (decompressCore env archiveName userFlags toDir, dirs1)

/-! ## Spec-modelled ambiguity resolver (spec §4.4)

The Python revision under verification implements only the naming
heuristic (`is_compressed_tar_archive`).  The spec's normative resolver
additionally sniffs the decompressed header; it is embedded here for
comparison with the source's resolver. -/

/-- POSIX tar magic `"ustar"` at its fixed offset 257 of a 512-byte header
block (byte values). -/
def hasTarMagic (bytes : List Nat) : Bool :=
  ((bytes.drop 257).take 5) == [117, 115, 116, 97, 114]

/-- Modelled from the spec (§4.4): the normative `is_tar_payload` resolver,
which is absent from this source revision.  Strategy 1 is the naming
heuristic; strategy 2 sniffs the first 512 decompressed bytes for the tar
magic; an unreadable header (`none`) classifies as tar (the documented
conservative default). -/
def isTarPayloadSpec (path : String) (header : Option (List Nat)) : Bool :=
  if strContainsSub (strLower (pathBasename path)) ".tar." then true
  else
    match header with
    | none => true
    | some bytes => hasTarMagic bytes

/-! ## Concrete host environments used as test inputs -/

/-- A host with no tools installed at all. -/
def envNone : Env := ⟨fun _ => none⟩

/-- A host with only `gzip` installed (not even `tar`). -/
def envGzipOnly : Env :=
  ⟨fun t => if t == "gzip" then some "/bin/gzip" else none⟩

/-- A host with exactly `tar` and `gzip` installed. -/
def envTarGzip : Env :=
  ⟨fun t =>
    if t == "gzip" then some "/bin/gzip"
    else if t == "tar" then some "/bin/tar"
    else none⟩

/-! ## Helper lemmas -/

/-- A successful `find_archive_format` result is an entry of `FORMATS`. -/
theorem findArchiveFormat_mem {n : String} {e : String × FormatConfig}
    (h : findArchiveFormat n = some e) : e ∈ FORMATS :=
  List.mem_of_find?_eq_some h

/-- Every registered format with the `pipe` special extraction has a
compression entry, so `_build_pipe_extraction_command` never raises. -/
theorem pipe_formats_have_compression :
    ∀ e ∈ FORMATS, e.2.special_extraction = some "pipe" →
      e.2.compression.isSome = true := by decide

/-- `_build_pipe_extraction_command` returns normally whenever the format
has a compression entry. -/
theorem pipeExtractionCommand_isSome (env : Env) (n : String)
    (cfg : FormatConfig) (td : Option String)
    (h : cfg.compression.isSome = true) :
    (pipeExtractionCommand env n cfg td).isSome = true := by
  unfold pipeExtractionCommand
  obtain ⟨gs, hc⟩ := Option.isSome_iff_exists.mp h
  rw [hc]
  repeat' split
  all_goals simp_all

/-- `ArchiveDecompressor`'s command computation never raises: every branch
returns a (possibly empty) command list. -/
theorem decompressCore_isSome (env : Env) (name : String)
    (uf : List String) (td : Option String) :
    (decompressCore env name uf td).isSome = true := by
  unfold decompressCore
  cases hf : findArchiveFormat name with
  | none => simp
  | some e =>
    obtain ⟨fn, cfg⟩ := e
    have hmem := findArchiveFormat_mem hf
    dsimp only
    by_cases hp : cfg.special_extraction = some "pipe"
    · rw [if_pos hp]
      exact pipeExtractionCommand_isSome env name cfg td
        (pipe_formats_have_compression _ hmem hp)
    · rw [if_neg hp]
      repeat' split
      all_goals simp

/-- Claim C1.  The claim is right and the code is wrong: the spec promises
both synthesis procedures are total and never raise for any registered
format name, but `FORMATS["deb"]` has no `"compression"` entry, so
`ArchiveCompressor.get_command` on any `.deb` name raises `KeyError` at
`format_config["compression"]` (line 235) before any tool is probed — on
every host, with any flags and files (first conjunct, `none` = raised
exception).  The decompression procedure is total as claimed (second
conjunct). -/
theorem c1_deb_compression_raises :
    (∀ env : Env, ∀ userFlags files : List String,
      compressGetCommand env "package.deb" userFlags files = none) ∧
    (∀ env : Env, ∀ name : String, ∀ userFlags : List String,
      ∀ toDir : Option String, ∀ dirs : List String,
      ((decompressGetCommand env name userFlags toDir dirs).1).isSome = true) := by
  constructor
  · intro env userFlags files
    rfl
  · intro env name userFlags toDir dirs
    exact decompressCore_isSome env name userFlags toDir

/-- Claim C2, counterexample.  On a host with no tools at all (in
particular no 7z), extracting `a.zip` does not yield the empty plan the
claim demands: the final fallback emits a hardcoded `7z` invocation naming
the absent binary. -/
theorem c2_counterexample :
    (decompressGetCommand envNone "a.zip" [] none []).1 = some ["7z", "x", "a.zip"] ∧
    isCommandAvailable envNone "7z" = false ∧
    isCommandAvailable envNone "unzip" = false := by decide

/-- Claim C2, amended.  When every tool in every tier is unavailable, the
*compression* fallback does return the empty plan, but the *extraction*
fallback instead returns a hardcoded `["7z", "x", ...]` command naming the
absent `7z` binary (source comment: "Final fallback - assume 7z is
available"); both outcomes are terminal, with no internal retry.  Shown on
the fallback builders and end-to-end for a `.zip` archive whose format and
fallback tools are all absent. -/
theorem c2_amended (env : Env) (name : String) (uf files : List String)
    (toDir : Option String) (dirs : List String)
    (h7 : isCommandAvailable env "7z" = false)
    (hu : isCommandAvailable env "unzip" = false)
    (hz : isCommandAvailable env "zip" = false) :
    fallbackExtractionCommand env name uf toDir =
      ["7z", "x"] ++ uf ++ [name] ++
        (if truthy toDir then ["-o" ++ toDir.getD ""] else []) ∧
    fallbackCompressionCommand env name uf files = [] ∧
    (decompressGetCommand env "a.zip" uf toDir dirs).1 =
      some (["7z", "x"] ++ uf ++ ["a.zip"] ++
        (if truthy toDir then ["-o" ++ toDir.getD ""] else [])) := by
  have hfb : ∀ n : String,
      fallbackExtractionCommand env n uf toDir =
        ["7z", "x"] ++ uf ++ [n] ++
          (if truthy toDir then ["-o" ++ toDir.getD ""] else []) := by
    intro n
    unfold fallbackExtractionCommand
    rw [h7, hu]
    simp
  refine ⟨hfb name, ?_, ?_⟩
  · unfold fallbackCompressionCommand
    have hzg : (((FORMATS.lookup "zip").bind (fun c => c.compression)).getD []) =
        [{ tools := ["zip"], flags := ["-r"] },
         { tools := ["7z"], flags := ["a", "-tzip"] }] := by rfl
    rw [hzg]
    simp [findAvailableToolGroup, findAvailableTool, h7, hz]
  · show decompressCore env "a.zip" uf toDir = _
    have hf : findArchiveFormat "a.zip" =
        some ("zip",
          { patterns := ["\\.zip$"],
            compression := some [{ tools := ["zip"], flags := ["-r"] },
                                 { tools := ["7z"], flags := ["a", "-tzip"] }],
            extraction := [{ tools := ["unzip"], flags := [], output_flag := some "-d" },
                           { tools := ["7z"], flags := ["x"], output_flag := some "-o" }] }) := by
      rfl
    unfold decompressCore
    rw [hf]
    simp only [findAvailableToolGroup, findAvailableTool, h7, hu]
    simp [hfb "a.zip"]

/-- Claim C2 amended, witness at a concrete input: the empty host. -/
theorem c2_amended_witness :
    isCommandAvailable envNone "7z" = false ∧
    isCommandAvailable envNone "unzip" = false ∧
    isCommandAvailable envNone "zip" = false ∧
    (fallbackExtractionCommand envNone "x.rar" [] none =
        ["7z", "x"] ++ [] ++ ["x.rar"] ++
          (if truthy none then ["-o" ++ (none : Option String).getD ""] else []) ∧
      fallbackCompressionCommand envNone "x.rar" [] [] = [] ∧
      (decompressGetCommand envNone "a.zip" [] none []).1 =
        some (["7z", "x"] ++ [] ++ ["a.zip"] ++
          (if truthy none then ["-o" ++ (none : Option String).getD ""] else []))) :=
  ⟨by decide, by decide, by decide,
    c2_amended envNone "x.rar" [] [] none [] (by decide) (by decide) (by decide)⟩

/-- Claim C3, counterexample.  The source's ambiguity resolver is the pure
naming test `is_compressed_tar_archive`; it consults no file content at
all.  For `x.gz` (no `.tar.` marker) the code classifies non-tar
unconditionally, whereas the claim requires the conservative tar default
whenever the header cannot be read (`none` = unreadable header in the
spec-modelled resolver). -/
theorem c3_counterexample :
    isCompressedTarArchive "x.gz" = false ∧
    isTarPayloadSpec "x.gz" none = true := by decide

/-- Claim C3, amended.  This revision classifies solely by filename: a
`check_tar` file whose basename contains `.tar.` extracts through tar; any
other name extracts through the single-file decompressor, with no content
sniff and no unreadable-header default (file content never enters the
decision, which depends only on the name and tool availability). -/
theorem c3_amended (env : Env) (uf : List String)
    (dirs : List String)
    (ht : isCommandAvailable env "tar" = true)
    (hg : isCommandAvailable env "gzip" = true)
    (hp : isCommandAvailable env "pigz" = false) :
    (decompressGetCommand env "a.tar.foo.gz" uf none dirs).1 =
      some ([whichD env "tar", "-xf", "a.tar.foo.gz"] ++ uf) ∧
    (decompressGetCommand env "x.gz" uf none dirs).1 =
      some ([whichD env "gzip", "-dk"] ++ uf ++ ["x.gz"]) := by
  have h1 : isCompressedTarArchive "a.tar.foo.gz" = true := by decide
  have h2 : isCompressedTarArchive "x.gz" = false := by decide
  have h3 : truthy (none : Option String) = false := rfl
  constructor
  · show decompressCore env "a.tar.foo.gz" uf none = _
    unfold decompressCore
    rw [show findArchiveFormat "a.tar.foo.gz" =
      some ("gz",
        { patterns := ["\\.gz$"], single_file := true, check_tar := true,
          compression := some [{ tools := ["pigz", "gzip"], flags := ["-c"] }],
          extraction := [{ tools := ["pigz", "gzip"], flags := ["-dk"] }] }) from rfl]
    simp [h1, ht, h3]
  · show decompressCore env "x.gz" uf none = _
    unfold decompressCore
    rw [show findArchiveFormat "x.gz" =
      some ("gz",
        { patterns := ["\\.gz$"], single_file := true, check_tar := true,
          compression := some [{ tools := ["pigz", "gzip"], flags := ["-c"] }],
          extraction := [{ tools := ["pigz", "gzip"], flags := ["-dk"] }] }) from rfl]
    simp [h2, h3, buildSingleFileExtractionCommand,
      findAvailableToolGroup, findAvailableTool, hp, hg]

/-- Claim C3 amended, witness: a host with tar and gzip. -/
theorem c3_amended_witness :
    isCommandAvailable envTarGzip "tar" = true ∧
    isCommandAvailable envTarGzip "gzip" = true ∧
    isCommandAvailable envTarGzip "pigz" = false ∧
    ((decompressGetCommand envTarGzip "a.tar.foo.gz" [] none []).1 =
        some ([whichD envTarGzip "tar", "-xf", "a.tar.foo.gz"] ++ []) ∧
      (decompressGetCommand envTarGzip "x.gz" [] none []).1 =
        some ([whichD envTarGzip "gzip", "-dk"] ++ [] ++ ["x.gz"])) :=
  ⟨by decide, by decide, by decide,
    c3_amended envTarGzip [] [] (by decide) (by decide) (by decide)⟩

/-- Claim C4, counterexample.  The claim's concrete scenario taken
literally — target `note.gz`, two files, *only* gzip available — yields the
empty plan `[]`, not a plan targeting `note.tar.gz` via tar-plus-gzip: the
tar-based rewrite needs the `tar` binary, and
`_build_tar_command_with_compression` returns `[]` without it. -/
theorem c4_counterexample :
    compressGetCommand envGzipOnly "note.gz" [] ["a", "b"] = some [] ∧
    isCommandAvailable envGzipOnly "gzip" = true ∧
    isCommandAvailable envGzipOnly "tar" = false := by decide

/-- Claim C4, amended.  For target `note.gz` with two or more input files,
when `tar` *and* gzip are available (and pigz is not, so gzip is the
resolved compressor), the synthesizer rewrites the target to `note.tar.gz`
and emits tar with gzip as `--use-compress-program` — never a raw gzip
invocation; when `tar` is unavailable the result is the empty plan (per the
counterexample), still never raw gzip. -/
theorem c4_amended (env : Env) (uf files : List String)
    (hn : 2 ≤ files.length)
    (ht : isCommandAvailable env "tar" = true)
    (hg : isCommandAvailable env "gzip" = true)
    (hp : isCommandAvailable env "pigz" = false) :
    compressGetCommand env "note.gz" uf files =
      some ([whichD env "tar", "-cf"] ++ uf ++
        ["note.tar.gz", "--use-compress-program", whichD env "gzip"] ++ files) := by
  have hlen : (files.length == 1) = false := by
    simp only [beq_eq_false_iff_ne, ne_eq]
    omega
  unfold compressGetCommand
  rw [show findArchiveFormat "note.gz" =
    some ("gz",
      { patterns := ["\\.gz$"], single_file := true, check_tar := true,
        compression := some [{ tools := ["pigz", "gzip"], flags := ["-c"] }],
        extraction := [{ tools := ["pigz", "gzip"], flags := ["-dk"] }] }) from rfl]
  dsimp only
  simp only [findAvailableToolGroup, findAvailableTool, hp, hg, if_false, if_true]
  unfold handleSingleFileCompression
  rw [hlen]
  simp only [Bool.false_eq_true, if_false]
  unfold convertToTarFormat
  rw [show firstSingleFileMatch "note.gz" = some "\\.gz$" from rfl]
  dsimp only
  rw [show strReplace "note.gz" (cleanPattern "\\.gz$")
        (".tar" ++ cleanPattern "\\.gz$") = "note.tar.gz" from rfl]
  rw [show findArchiveFormat "note.tar.gz" =
    some ("tar_gz",
      { patterns := ["\\.tar\\.gz$", "\\.tgz$", "\\.taz$"],
        compression := some [{ tools := ["pigz", "gzip"], flags := ["-cf"] }],
        extraction := [{ tools := ["tar"], flags := ["-xf"] }] }) from rfl]
  dsimp only
  rw [if_pos (show isTarFormat "tar_gz" = true from rfl)]
  simp only [findAvailableToolGroup, findAvailableTool, hp, hg, if_false, if_true]
  unfold buildTarCommandWithCompression
  rw [ht]
  simp

/-- Claim C4 amended, witness: tar and gzip installed, two files. -/
theorem c4_amended_witness :
    2 ≤ (["a", "b"] : List String).length ∧
    isCommandAvailable envTarGzip "tar" = true ∧
    isCommandAvailable envTarGzip "gzip" = true ∧
    isCommandAvailable envTarGzip "pigz" = false ∧
    compressGetCommand envTarGzip "note.gz" [] ["a", "b"] =
      some ([whichD envTarGzip "tar", "-cf"] ++ [] ++
        ["note.tar.gz", "--use-compress-program", whichD envTarGzip "gzip"] ++
        ["a", "b"]) :=
  ⟨by decide, by decide, by decide, by decide,
    c4_amended envTarGzip [] ["a", "b"] (by decide) (by decide) (by decide) (by decide)⟩

/-- Claim C5, counterexample.  The registered patterns are not mutually
exclusive: the literal filename `a.tar.gz` is matched both by the `tar_gz`
descriptor's patterns and by the `gz` descriptor's patterns, which are two
distinct registered descriptors. -/
theorem c5_counterexample :
    ((FORMATS.lookup "tar_gz").map
      (fun c => matchFormatPatterns "a.tar.gz" c.patterns)) = some true ∧
    ((FORMATS.lookup "gz").map
      (fun c => matchFormatPatterns "a.tar.gz" c.patterns)) = some true ∧
    "tar_gz" ≠ "gz" := by decide

/-- Claim C5, amended.  The lookup itself behaves as claimed — it
lower-cases the filename, tests descriptors in registration order, returns
the first match, `none` when nothing matches, and is a pure function — but
the patterns are *not* mutually exclusive: overlaps such as `a.tar.gz`
(matched by both `tar_gz` and `gz`) are resolved only by the first-match
rule, which deterministically selects the earlier-registered `tar_gz`. -/
theorem c5_amended :
    findArchiveFormat "A.TAR.GZ" = findArchiveFormat "a.tar.gz" ∧
    (findArchiveFormat "a.tar.gz").map Prod.fst = some "tar_gz" ∧
    ((FORMATS.lookup "gz").map
      (fun c => matchFormatPatterns "a.tar.gz" c.patterns)) = some true ∧
    findArchiveFormat "readme.txt" = none := by decide

/-- Claim C6.  `_build_extraction_command` places a given destination
directory exactly per the resolved group's convention — concatenated for
`-o` / `-op` / `--output=`, separate trailing argument pair for `-d` /
`-to` — and emits no directory flag or argument at all when no destination
is given.  The claim's remaining convention (bare trailing argument for the
empty flag) is vacuous over this program: no registered extraction group
records an empty `output_flag` (final conjunct), which is just as well
because the source's `if to_dir and output_flag:` guard would skip the
`elif output_flag == "":` arm anyway. -/
theorem c6_dest_dir_conventions (env : Env) (tool : String)
    (tf uf : List String) (name d of : String)
    (hd : d ≠ "") :
    ((of = "-o" ∨ of = "-op" ∨ of = "--output=") →
      buildExtractionCommand env tool tf uf (some of) name (some d) =
        [whichD env tool] ++ tf ++ uf ++ [name] ++ [of ++ d]) ∧
    ((of = "-d" ∨ of = "-to") →
      buildExtractionCommand env tool tf uf (some of) name (some d) =
        [whichD env tool] ++ tf ++ uf ++ [name] ++ [of, d]) ∧
    (∀ ofl : Option String,
      buildExtractionCommand env tool tf uf ofl name none =
        [whichD env tool] ++ tf ++ uf ++ [name]) ∧
    (∀ e ∈ FORMATS, ∀ g ∈ e.2.extraction, g.output_flag ≠ some "") := by
  refine ⟨?_, ?_, ?_, by decide⟩
  · rintro (rfl | rfl | rfl) <;> simp [buildExtractionCommand, truthy, hd]
  · rintro (rfl | rfl) <;> simp [buildExtractionCommand, truthy, hd]
  · intro ofl
    simp [buildExtractionCommand, truthy]

/-- Claim C6, witness: unzip's `-d` convention with destination `out`, and
the same call without a destination. -/
theorem c6_dest_dir_conventions_witness :
    ("out" : String) ≠ "" ∧
    ((("-d" : String) = "-o" ∨ ("-d" : String) = "-op" ∨ ("-d" : String) = "--output=") →
      buildExtractionCommand envNone "unzip" [] [] (some "-d") "a.zip" (some "out") =
        [whichD envNone "unzip"] ++ [] ++ [] ++ ["a.zip"] ++ ["-d" ++ "out"]) ∧
    ((("-d" : String) = "-d" ∨ ("-d" : String) = "-to") →
      buildExtractionCommand envNone "unzip" [] [] (some "-d") "a.zip" (some "out") =
        [whichD envNone "unzip"] ++ [] ++ [] ++ ["a.zip"] ++ ["-d", "out"]) ∧
    (∀ ofl : Option String,
      buildExtractionCommand envNone "unzip" [] [] ofl "a.zip" none =
        [whichD envNone "unzip"] ++ [] ++ [] ++ ["a.zip"]) ∧
    (∀ e ∈ FORMATS, ∀ g ∈ e.2.extraction, g.output_flag ≠ some "") :=
  ⟨by decide,
    (c6_dest_dir_conventions envNone "unzip" [] [] "a.zip" "out" "-d"
      (by decide)).1,
    (c6_dest_dir_conventions envNone "unzip" [] [] "a.zip" "out" "-d"
      (by decide)).2.1,
    (c6_dest_dir_conventions envNone "unzip" [] [] "a.zip" "out" "-d"
      (by decide)).2.2.1,
    (c6_dest_dir_conventions envNone "unzip" [] [] "a.zip" "out" "-d"
      (by decide)).2.2.2⟩

/-- Claim C8.  Tool resolution is the claimed two-level ordered fallback:
`find_available_tool` returns the first listed name available on the host
(equivalently, `List.find?` of the availability predicate, `none` when all
are absent), and `find_available_tool_group` skips groups with no available
tool and returns the tool, flags, and output flag of the first group that
has one — so when the first group's tools are all absent and the second
group resolves, exactly the second group is selected. -/
theorem c8_tool_resolution_order :
    (∀ env : Env, ∀ tools : List String,
      findAvailableTool env tools =
        tools.find? (fun t => isCommandAvailable env t)) ∧
    (∀ env : Env, ∀ g1 g2 : ToolGroup, ∀ gs : List ToolGroup, ∀ t : String,
      findAvailableTool env g1.tools = none →
      findAvailableTool env g2.tools = some t →
      findAvailableToolGroup env (g1 :: g2 :: gs) =
        some (t, g2.flags, g2.output_flag)) := by
  constructor
  · intro env tools
    induction tools with
    | nil => rfl
    | cons t ts ih =>
      by_cases h : isCommandAvailable env t <;>
        simp [findAvailableTool, List.find?_cons, h, ih]
  · intro env g1 g2 gs t h1 h2
    simp [findAvailableToolGroup, h1, h2]

/-- Claim C8, witness: on a tar+gzip host, a first group needing only
`pigz` is skipped and the second group resolves to `gzip` with its own
flags and output flag. -/
theorem c8_tool_resolution_order_witness :
    findAvailableTool envTarGzip ["pigz"] = none ∧
    findAvailableTool envTarGzip ["pixz", "gzip"] = some "gzip" ∧
    findAvailableToolGroup envTarGzip
      [{ tools := ["pigz"], flags := ["-a"] },
       { tools := ["pixz", "gzip"], flags := ["-b"], output_flag := some "-o" }] =
      some ("gzip", ["-b"], some "-o") :=
  ⟨by decide, by decide,
    c8_tool_resolution_order.2 envTarGzip
      { tools := ["pigz"], flags := ["-a"] }
      { tools := ["pixz", "gzip"], flags := ["-b"], output_flag := some "-o" }
      [] "gzip" (by decide) (by decide)⟩

/-! ## Spec-modelled tool capability classifier and flag sanitizer
(spec §4.3)

No flag sanitizer exists in `src/` — the Python files pass template and
user flags straight through.  The spec attributes this component to the
repository's final engine revision, whose code is not part of `src/`
(`archives_utils.py` references it as "main.lua"), so the component is
modelled from the spec's words and Claim C9 is settled against the model. -/

/-- Modelled from the spec: the enumerated tool variants produced by the
§4.3 classifier (reference implementation, alternate implementation, or the
conservative `unknown`). -/
inductive ToolVariant
  | reference
  | alternate
  | unknown
deriving DecidableEq

/-- Modelled from the spec: the static per-variant compatibility table —
for each variant, the flags unsupported by that variant, each with an
optional equivalent substitute flag. -/
def CompatTable : Type := ToolVariant → List (String × Option String)

/-- Modelled from the spec: the per-flag sanitization rule — unsupported
flags with a substitute are rewritten, unsupported flags with no
substitute are dropped, everything else passes through unchanged. -/
def substRule (table : CompatTable) (v : ToolVariant) (f : String) :
    Option String :=
  match List.lookup f (table v) with
  | none => some f
  | some none => none
  | some (some s) => some s

/-- Modelled from the spec: `sanitize_flags(tool_path, flags) -> flags'`,
applied flag-wise in order. -/
def sanitizeFlags (table : CompatTable) (v : ToolVariant)
    (flags : List String) : List String :=
  flags.filterMap (substRule table v)

/-- Well-formedness of a compatibility table for a variant: a substitute
flag is itself supported (otherwise the table would re-ban its own
replacements). -/
def CompatWF (table : CompatTable) (v : ToolVariant) : Prop :=
  ∀ p ∈ table v,
    (p.2.all (fun s => (List.lookup s (table v)).isNone)) = true

/-- Modelled from the spec: a concrete instance of the §4.3 table for the
tar family — the alternate implementation spells the external-compressor
flag differently, and the conservative `unknown` variant applies the
strictest filter (drop what cannot be proven supported). -/
def compatTableModel : CompatTable := fun v =>
  match v with
  | ToolVariant.reference => []
  | ToolVariant.alternate => [("--use-compress-program", some "-I")]
  | ToolVariant.unknown =>
    [("--use-compress-program", none), ("--acls", none)]

/-- A successful association-list lookup comes from a list entry. -/
theorem lookup_mem {α β : Type} [BEq α] [LawfulBEq α] {l : List (α × β)}
    {k : α} {b : β} (h : List.lookup k l = some b) : (k, b) ∈ l := by
  obtain ⟨l1, l2, rfl, -⟩ := List.lookup_eq_some_iff.mp h
  simp

/-- Claim C9 (settled against the spec-modelled sanitizer).  For every
well-formed table, variant and flag list: a flag marked unsupported — with
or without a substitute — never appears in the sanitized output; where a
substitute is defined it appears in the unsupported flag's place; and
supported flags pass through. -/
theorem c9_sanitize_flags (table : CompatTable) (v : ToolVariant)
    (flags : List String) (hwf : CompatWF table v) :
    (∀ f : String, List.lookup f (table v) = some none →
      f ∉ sanitizeFlags table v flags) ∧
    (∀ f s : String, List.lookup f (table v) = some (some s) →
      f ∉ sanitizeFlags table v flags ∧
      (f ∈ flags → s ∈ sanitizeFlags table v flags)) ∧
    (∀ f : String, List.lookup f (table v) = none →
      f ∈ flags → f ∈ sanitizeFlags table v flags) := by
  have habs : ∀ f : String, (List.lookup f (table v)).isSome = true →
      f ∉ sanitizeFlags table v flags := by
    intro f hf hmem
    obtain ⟨g, -, hrule⟩ := List.mem_filterMap.mp hmem
    unfold substRule at hrule
    cases hl : List.lookup g (table v) with
    | none =>
      rw [hl] at hrule
      obtain rfl : g = f := by simpa using hrule
      rw [hl] at hf
      simp at hf
    | some o =>
      cases o with
      | none => rw [hl] at hrule; simp at hrule
      | some s =>
        rw [hl] at hrule
        obtain rfl : s = f := by simpa using hrule
        have := hwf _ (lookup_mem hl)
        simp only [Option.all_some] at this
        rw [Option.isNone_iff_eq_none.mp this] at hf
        simp at hf
  refine ⟨fun f hf => habs f (by simp [hf]), fun f s hf => ⟨?_, ?_⟩, ?_⟩
  · exact habs f (by simp [hf])
  · intro hmem
    exact List.mem_filterMap.mpr ⟨f, hmem, by simp [substRule, hf]⟩
  · intro f hf hmem
    exact List.mem_filterMap.mpr ⟨f, hmem, by simp [substRule, hf]⟩

/-- Claim C9, witness: the `unknown` variant of the modelled table drops
both of its unsupported flags and passes `-cf` through. -/
theorem c9_sanitize_flags_witness :
    CompatWF compatTableModel ToolVariant.unknown ∧
    ((∀ f : String,
        List.lookup f (compatTableModel ToolVariant.unknown) = some none →
        f ∉ sanitizeFlags compatTableModel ToolVariant.unknown
          ["-cf", "--acls", "--use-compress-program"]) ∧
      (∀ f s : String,
        List.lookup f (compatTableModel ToolVariant.unknown) = some (some s) →
        f ∉ sanitizeFlags compatTableModel ToolVariant.unknown
            ["-cf", "--acls", "--use-compress-program"] ∧
          (f ∈ ["-cf", "--acls", "--use-compress-program"] →
            s ∈ sanitizeFlags compatTableModel ToolVariant.unknown
              ["-cf", "--acls", "--use-compress-program"])) ∧
      (∀ f : String,
        List.lookup f (compatTableModel ToolVariant.unknown) = none →
        f ∈ ["-cf", "--acls", "--use-compress-program"] →
        f ∈ sanitizeFlags compatTableModel ToolVariant.unknown
          ["-cf", "--acls", "--use-compress-program"])) :=
  ⟨by unfold CompatWF; decide,
    c9_sanitize_flags compatTableModel ToolVariant.unknown
      ["-cf", "--acls", "--use-compress-program"] (by unfold CompatWF; decide)⟩

/-- Claim C10, counterexample.  `ArchiveDecompressor.get_command` guards
directory creation with Python truthiness (`if to_dir:`), not a `None`
test: called with the non-`None` destination `""`, it creates nothing —
the directory set is returned unchanged — contradicting the claim that
every non-None destination is created. -/
theorem c10_counterexample :
    (decompressGetCommand envNone "a.zip" [] (some "") ["d0"]).2 = ["d0"] ∧
    (some "" : Option String) ≠ none := by decide

/-- Claim C10, amended.  For every *truthy* (non-`None`, non-empty)
destination string, the directory and all its ancestors are created
unconditionally — the update is the same for every host environment,
archive name and flag list, i.e. it precedes and is independent of format
lookup and tool resolution, so it persists even when the returned plan is
empty or a fallback command — and a `None` destination creates nothing. -/
theorem c10_amended (env : Env) (name : String) (uf : List String)
    (d : String) (dirs : List String) (hd : d ≠ "") :
    (decompressGetCommand env name uf (some d) dirs).2 = mkdirParents d dirs ∧
    d ∈ (decompressGetCommand env name uf (some d) dirs).2 ∧
    (∀ a ∈ pathAncestors d, a ∈ (decompressGetCommand env name uf (some d) dirs).2) ∧
    (decompressGetCommand env name uf none dirs).2 = dirs := by
  have h2 : (decompressGetCommand env name uf (some d) dirs).2 =
      mkdirParents d dirs := by
    show (if truthy (some d) then mkdirParents ((some d).getD "") dirs else dirs) = _
    simp [truthy, hd]
  refine ⟨h2, ?_, ?_, rfl⟩
  · rw [h2]; exact List.mem_cons_self _ _
  · intro a ha
    rw [h2]
    exact List.mem_cons_of_mem _ (List.mem_append_left _ ha)

/-- Claim C10, witness: destination `out/sub` on the empty host. -/
theorem c10_amended_witness :
    ("out/sub" : String) ≠ "" ∧
    ((decompressGetCommand envNone "a.zip" [] (some "out/sub") []).2 =
        mkdirParents "out/sub" [] ∧
      "out/sub" ∈ (decompressGetCommand envNone "a.zip" [] (some "out/sub") []).2 ∧
      (∀ a ∈ pathAncestors "out/sub",
        a ∈ (decompressGetCommand envNone "a.zip" [] (some "out/sub") []).2) ∧
      (decompressGetCommand envNone "a.zip" [] none []).2 = []) :=
  ⟨by decide, c10_amended envNone "a.zip" [] "out/sub" [] (by decide)⟩

/-! ## Head-of-command lemmas for Claim C7 -/

/-- A standard archive command starts with the resolved tool path. -/
theorem buildStandardCommand_head (env : Env) (t : String) (tf uf : List String)
    (n : String) (fs : List String) :
    (buildStandardCommand env t tf uf n fs).head? = some (whichD env t) := rfl

/-- A tar-with-compressor command is empty or starts with the tar path;
either way it is not a `sh` invocation on a host where no tool resolves to
the bare name `sh`. -/
theorem buildTarCommandWithCompression_head_ne_sh (env : Env)
    (h1 : whichD env "tar" ≠ "sh") (t : String) (tf uf : List String)
    (n : String) (fs : List String) :
    (buildTarCommandWithCompression env t tf uf n fs).head? ≠ some "sh" := by
  unfold buildTarCommandWithCompression
  split
  · simp
  · intro hc
    exact h1 (Option.some.inj hc)

/-- Every exit of `_convert_to_tar_format` is a tar-with-compressor build,
so its result never starts with `sh`. -/
theorem convertToTarFormat_head_ne_sh (env : Env)
    (h1 : whichD env "tar" ≠ "sh") {tool : String} {uf : List String}
    {n : String} {fs l : List String}
    (h : convertToTarFormat env tool uf n fs = some l) :
    l.head? ≠ some "sh" := by
  unfold convertToTarFormat at h
  split at h
  · dsimp only at h
    repeat' split at h
    all_goals first
      | exact Option.noConfusion h
      | (injection h with h; subst h;
          exact buildTarCommandWithCompression_head_ne_sh env h1 _ _ _ _ _)
  · injection h with h
    subst h
    exact buildTarCommandWithCompression_head_ne_sh env h1 _ _ _ _ _

/-- The zip fallback compression command is empty or starts with the
resolved zip/7z path. -/
theorem fallbackCompressionCommand_head_ne_sh (env : Env)
    (hsane : ∀ t : String, whichD env t ≠ "sh") (n : String)
    (uf fs : List String) :
    (fallbackCompressionCommand env n uf fs).head? ≠ some "sh" := by
  unfold fallbackCompressionCommand
  split
  · exact fun hc => hsane _ (Option.some.inj hc)
  · simp

/-- With exactly one file, `_handle_single_file_compression` is the shell
redirection; with any other count it defers to the tar conversion, whose
result never starts with `sh`. -/
theorem handleSingleFileCompression_len (env : Env)
    (h1 : whichD env "tar" ≠ "sh") {tool : String} {tf uf : List String}
    {n : String} {fs l : List String}
    (h : handleSingleFileCompression env tool tf uf n fs = some l)
    (hsh : l.head? = some "sh") : fs.length = 1 := by
  unfold handleSingleFileCompression at h
  by_cases hlen : (fs.length == 1) = true
  · simpa using hlen
  · rw [if_neg hlen] at h
    exact absurd hsh (convertToTarFormat_head_ne_sh env h1 h)

/-- The last-resort extraction fallback starts with the 7z path, the unzip
path, or the literal `"7z"` — never `sh`. -/
theorem fallbackExtractionCommand_head_ne_sh (env : Env)
    (hsane : ∀ t : String, whichD env t ≠ "sh") (n : String)
    (uf : List String) (td : Option String) :
    (fallbackExtractionCommand env n uf td).head? ≠ some "sh" := by
  unfold fallbackExtractionCommand
  split
  · intro hc
    exact hsane "7z" (Option.some.inj hc)
  · split
    · intro hc
      exact hsane "unzip" (Option.some.inj hc)
    · intro hc
      exact absurd (Option.some.inj hc) (by decide)

/-- A single-file extraction command is empty or starts with the resolved
decompressor path. -/
theorem buildSingleFileExtractionCommand_head_ne_sh (env : Env)
    (hsane : ∀ t : String, whichD env t ≠ "sh") (cfg : FormatConfig)
    (uf : List String) (n : String) :
    (buildSingleFileExtractionCommand env cfg uf n).head? ≠ some "sh" := by
  unfold buildSingleFileExtractionCommand
  split
  · exact fun hc => hsane _ (Option.some.inj hc)
  · simp

/-- A standard extraction command always starts with the resolved tool
path, whatever the destination convention appends. -/
theorem buildExtractionCommand_head (env : Env) (t : String)
    (tf uf : List String) (ofl : Option String) (n : String)
    (td : Option String) :
    (buildExtractionCommand env t tf uf ofl n td).head? = some (whichD env t) := by
  unfold buildExtractionCommand
  dsimp only
  repeat' split
  all_goals rfl

/-- Claim C7, counterexample.  The pipe extraction is not the only shell
string the engine hands to `sh -c`: compressing a single file into a
`single_file` format builds a shell redirection string too.  `note.gz` with
one file on a gzip-only host yields `["sh", "-c", ...]`, and the `gz`
format is not the documented `pipe` special case (second conjunct). -/
theorem c7_counterexample :
    compressGetCommand envGzipOnly "note.gz" [] ["note.txt"] =
      some ["sh", "-c",
        "/bin/gzip -c " ++ shQuote ++ "note.txt" ++ shQuote ++ " > " ++
          shQuote ++ "note.gz" ++ shQuote] ∧
    ((FORMATS.lookup "gz").map (fun c => c.special_extraction)) = some none := by
  decide

/-- Claim C7, amended.  On any host where no binary resolves to the bare
path `sh`, the synthesized output is a flat argument vector except in
exactly two shell-string cases: a compression whose output starts with `sh`
must be a `single_file` format with exactly one input file (the shell
redirection), and an extraction whose output starts with `sh` must be a
format with the `pipe` special extraction (the documented two-stage
pipeline). -/
theorem c7_amended (env : Env)
    (hsane : ∀ t : String, whichD env t ≠ "sh") :
    (∀ name : String, ∀ uf files cmd : List String,
      compressGetCommand env name uf files = some cmd →
      cmd.head? = some "sh" →
      ∃ fn cfg, findArchiveFormat name = some (fn, cfg) ∧
        cfg.single_file = true ∧ files.length = 1) ∧
    (∀ name : String, ∀ uf : List String, ∀ toDir : Option String,
      ∀ dirs cmd : List String,
      (decompressGetCommand env name uf toDir dirs).1 = some cmd →
      cmd.head? = some "sh" →
      ∃ fn cfg, findArchiveFormat name = some (fn, cfg) ∧
        cfg.special_extraction = some "pipe") := by
  constructor
  · intro name uf files cmd hc hsh
    unfold compressGetCommand at hc
    cases hf : findArchiveFormat name with
    | none =>
      rw [hf] at hc
      dsimp only at hc
      injection hc with hc
      subst hc
      exact absurd hsh (fallbackCompressionCommand_head_ne_sh env hsane _ _ _)
    | some e =>
      obtain ⟨fn, cfg⟩ := e
      rw [hf] at hc
      dsimp only at hc
      cases hcomp : cfg.compression with
      | none =>
        rw [hcomp] at hc
        exact Option.noConfusion hc
      | some groups =>
        rw [hcomp] at hc
        dsimp only at hc
        split at hc
        · -- no tool in the format's own groups: fallback format, then zip
          split at hc
          · -- a fallback format is registered
            split at hc
            · exact Option.noConfusion hc
            · split at hc
              · injection hc with hc
                subst hc
                exact absurd (Option.some.inj hsh) (hsane _)
              · injection hc with hc
                subst hc
                exact absurd hsh
                  (fallbackCompressionCommand_head_ne_sh env hsane _ _ _)
          · injection hc with hc
            subst hc
            exact absurd hsh (fallbackCompressionCommand_head_ne_sh env hsane _ _ _)
        · -- a tool group resolved
          by_cases hsf : cfg.single_file = true
          · rw [if_pos hsf] at hc
            exact ⟨fn, cfg, rfl, hsf,
              handleSingleFileCompression_len env (hsane "tar") hc hsh⟩
          · rw [if_neg hsf] at hc
            split at hc
            · split at hc
              · injection hc with hc
                subst hc
                exact absurd (Option.some.inj hsh) (hsane _)
              · injection hc with hc
                subst hc
                exact absurd hsh
                  (buildTarCommandWithCompression_head_ne_sh env (hsane "tar") _ _ _ _ _)
            · injection hc with hc
              subst hc
              exact absurd (Option.some.inj hsh) (hsane _)
  · intro name uf toDir dirs cmd hc hsh
    replace hc : decompressCore env name uf toDir = some cmd := hc
    unfold decompressCore at hc
    cases hf : findArchiveFormat name with
    | none =>
      rw [hf] at hc
      dsimp only at hc
      injection hc with hc
      subst hc
      exact absurd hsh (fallbackExtractionCommand_head_ne_sh env hsane _ _ _)
    | some e =>
      obtain ⟨fn, cfg⟩ := e
      rw [hf] at hc
      dsimp only at hc
      by_cases hp : cfg.special_extraction = some "pipe"
      · exact ⟨fn, cfg, rfl, hp⟩
      · rw [if_neg hp] at hc
        split at hc
        · injection hc with hc
          subst hc
          exact absurd (Option.some.inj hsh) (hsane "tar")
        · split at hc
          · injection hc with hc
            subst hc
            exact absurd hsh
              (buildSingleFileExtractionCommand_head_ne_sh env hsane _ _ _)
          · split at hc
            · rename_i t2 r2 heq2
              injection hc with hc
              subst hc
              rw [buildExtractionCommand_head] at hsh
              exact absurd (Option.some.inj hsh) (hsane _)
            · split at hc
              · split at hc
                · rename_i t3 r3 heq3
                  injection hc with hc
                  subst hc
                  rw [buildExtractionCommand_head] at hsh
                  exact absurd (Option.some.inj hsh) (hsane _)
                · injection hc with hc
                  subst hc
                  exact absurd hsh
                    (fallbackExtractionCommand_head_ne_sh env hsane _ _ _)
              · injection hc with hc
                subst hc
                exact absurd hsh
                  (fallbackExtractionCommand_head_ne_sh env hsane _ _ _)

/-- Claim C7 amended, witness: the empty host, where every `whichD` is the
empty string. -/
theorem c7_amended_witness :
    (∀ t : String, whichD envNone t ≠ "sh") ∧
    ((∀ name : String, ∀ uf files cmd : List String,
        compressGetCommand envNone name uf files = some cmd →
        cmd.head? = some "sh" →
        ∃ fn cfg, findArchiveFormat name = some (fn, cfg) ∧
          cfg.single_file = true ∧ files.length = 1) ∧
      (∀ name : String, ∀ uf : List String, ∀ toDir : Option String,
        ∀ dirs cmd : List String,
        (decompressGetCommand envNone name uf toDir dirs).1 = some cmd →
        cmd.head? = some "sh" →
        ∃ fn cfg, findArchiveFormat name = some (fn, cfg) ∧
          cfg.special_extraction = some "pipe")) :=
  ⟨fun _ => (by decide : ("" : String) ≠ "sh"),
    c7_amended envNone (fun _ => (by decide : ("" : String) ≠ "sh"))⟩

end RangerArchives
